import Mathlib

/-!
Verification development for the dev-farm dashboard (`dashboard/app.py`).

The Python module is shallowly embedded: the registry JSON file becomes an
association list of environment records, the Docker client and all network
calls become explicit oracle parameters (their observable outcomes), and each
route handler or helper becomes a pure Lean function mirroring the Python
control flow statement by statement.  Machine-relevant conventions:

* Python dicts keyed by strings are `List (String × _)` with unique-key
  (first-match) lookup, insertion-order preserving mutation.
* Python truthiness of an optional string (`if container_id:`) is `pyTruthy`.
* `requests`/Docker failures are `Option`/outcome inductives; `try/except`
  blocks become matches on those outcomes.
* Exact rational arithmetic stands in for Python floats; the claims exercised
  here never hit a rounding tie, where float and rational rounding could
  differ.
-/

set_option autoImplicit false

namespace DevFarm

/-- One entry of the registry JSON file (`/data/environments.json`).  Fields
mirror the dict built in `create_environment`; `status` is the cached
container status maintained by `sync_registry_with_containers` (absent until
first refresh, hence `Option`).  `container_id` is `Option` because
`registry[env].get('container_id')` may be `None`/missing. -/
structure EnvRecord where
  display_name : String := ""
  env_id : String := ""
  container_id : Option String := none
  port : Nat := 0
  created : String := ""
  project : String := ""
  mode : String := ""
  git_url : Option String := none
  ssh_host : Option String := none
  parent_env_id : Option String := none
  creator_type : String := ""
  creator_name : String := ""
  creation_source : String := ""
  children : List String := []
  status : Option String := none
  deriving Repr, DecidableEq

/-- The registry: environment id → record, in insertion order (Python dict). -/
abbrev Registry := List (String × EnvRecord)

/-- Python truthiness of an optional string: `None` and `''` are falsy. -/
def pyTruthy : Option String → Bool
  | none => false
  | some s => s ≠ ""

/-- First-match lookup, i.e. `registry.get(k)` on a unique-key dict. -/
def lookupEnv : Registry → String → Option EnvRecord
  | [], _ => none
  | (k', v) :: rest, k => if k' = k then some v else lookupEnv rest k

/-- `registry[k] = v`: replace in place if present, else append (dict order). -/
def setEnv : Registry → String → EnvRecord → Registry
  | [], k, v => [(k, v)]
  | (k', v') :: rest, k, v =>
    if k' = k then (k, v) :: rest else (k', v') :: setEnv rest k v

/-- `del registry[k]` (first occurrence; dict keys are unique). -/
def eraseEnv : Registry → String → Registry
  | [], _ => []
  | (k', v) :: rest, k => if k' = k then rest else (k', v) :: eraseEnv rest k

/-- In-place mutation of the record stored under `k`, if any. -/
def modifyEnv : Registry → String → (EnvRecord → EnvRecord) → Registry
  | [], _, _ => []
  | (k', v) :: rest, k, f =>
    if k' = k then (k, f v) :: rest else (k', v) :: modifyEnv rest k f

/-- Lookup in the `existing_containers` map (container id → live status)
built from `client.containers.list(all=True, filters=dev-farm)`. -/
def lookupStatus : List (String × String) → String → Option String
  | [], _ => none
  | (i, s) :: rest, cid => if i = cid then some s else lookupStatus rest cid

/-- The `for env_name in list(registry.keys())` loop body of
`sync_registry_with_containers`: a record whose truthy `container_id` is
absent from the live set is deleted; one whose cached `status` differs from
the live status is updated; everything else (including records with missing
or empty `container_id`) is left untouched.  Returns the new registry and
the `registry_modified` flag. -/
def syncEntries (containers : List (String × String)) : Registry → Registry × Bool
  | [] => ([], false)
  | (name, r) :: rest =>
    let tail := syncEntries containers rest
    match r.container_id with
    | none => ((name, r) :: tail.1, tail.2)
    | some cid =>
      if cid = "" then ((name, r) :: tail.1, tail.2)
      else
        match lookupStatus containers cid with
        | none => (tail.1, true)
        | some live =>
          if r.status = some live then ((name, r) :: tail.1, tail.2)
          else ((name, { r with status := some live }) :: tail.1, true)

/-- Result of one reconciliation pass: the registry afterwards and whether
`save_registry` ran (which also broadcasts `registry-update`). -/
structure SyncResult where
  registry : Registry
  wrote : Bool
  deriving Repr, DecidableEq

/-- `sync_registry_with_containers()`.  `clientAvailable` models the
module-level `client` being non-`None`; `containersResult` is the outcome of
the `client.containers.list` call (`none` = exception, which returns without
touching the registry).  `save_registry` runs only when the loop set
`registry_modified`. -/
def sync_registry_with_containers (clientAvailable : Bool) (reg : Registry)
    (containersResult : Option (List (String × String))) : SyncResult :=
  if clientAvailable = false then ⟨reg, false⟩
  else
    match containersResult with
    | none => ⟨reg, false⟩
    | some containers =>
      let res := syncEntries containers reg
      if res.2 then ⟨res.1, true⟩ else ⟨res.1, false⟩

/-- An entry is *stale* when the reconciler would touch it: truthy
`container_id` that is either absent from the live set or has a cached
status differing from the live one. -/
def entryStale (containers : List (String × String)) (r : EnvRecord) : Bool :=
  match r.container_id with
  | none => false
  | some cid =>
    if cid = "" then false
    else
      match lookupStatus containers cid with
      | none => true
      | some live => r.status ≠ some live

theorem syncEntries_modified_iff (cs : List (String × String)) (reg : Registry) :
    (syncEntries cs reg).2 = reg.any (fun p => entryStale cs p.2) := by
  induction reg with
  | nil => simp [syncEntries]
  | cons hd tl ih =>
    obtain ⟨name, r⟩ := hd
    simp only [syncEntries, List.any_cons]
    match h : r.container_id with
    | none => simp [entryStale, h, ih]
    | some cid =>
      by_cases hc : cid = ""
      · simp [entryStale, h, hc, ih]
      · match hs : lookupStatus cs cid with
        | none => simp [entryStale, h, hc, hs]
        | some live =>
          by_cases hst : r.status = some live
          · simp [entryStale, h, hc, hs, hst, ih]
          · simp [entryStale, h, hc, hs, hst]

theorem syncEntries_not_modified (cs : List (String × String)) (reg : Registry)
    (h : (syncEntries cs reg).2 = false) : (syncEntries cs reg).1 = reg := by
  induction reg with
  | nil => simp [syncEntries]
  | cons hd tl ih =>
    obtain ⟨name, r⟩ := hd
    simp only [syncEntries] at h ⊢
    match hcid : r.container_id with
    | none =>
      simp only [hcid] at h ⊢
      simp [ih h]
    | some cid =>
      by_cases hc : cid = ""
      · simp only [hcid, if_pos hc] at h ⊢
        simp [ih h]
      · match hs : lookupStatus cs cid with
        | none => simp [hcid, hc, hs] at h
        | some live =>
          by_cases hst : r.status = some live
          · simp only [hcid, if_neg hc, hs, if_pos hst] at h ⊢
            simp [ih h]
          · simp [hcid, hc, hs, hst] at h

/-- Every entry surviving a reconciliation pass is stable: a second pass
finds nothing stale. -/
theorem syncEntries_result_stable (cs : List (String × String)) (reg : Registry) :
    ∀ p ∈ (syncEntries cs reg).1, entryStale cs p.2 = false := by
  induction reg with
  | nil => simp [syncEntries]
  | cons hd tl ih =>
    obtain ⟨name, r⟩ := hd
    intro p hp
    simp only [syncEntries] at hp
    match hcid : r.container_id with
    | none =>
      simp only [hcid, List.mem_cons] at hp
      rcases hp with rfl | hp
      · simp [entryStale, hcid]
      · exact ih p hp
    | some cid =>
      by_cases hc : cid = ""
      · simp only [hcid, if_pos hc, List.mem_cons] at hp
        rcases hp with rfl | hp
        · simp [entryStale, hcid, hc]
        · exact ih p hp
      · match hs : lookupStatus cs cid with
        | none =>
          simp only [hcid, if_neg hc, hs] at hp
          exact ih p hp
        | some live =>
          by_cases hst : r.status = some live
          · simp only [hcid, if_neg hc, hs, if_pos hst, List.mem_cons] at hp
            rcases hp with rfl | hp
            · simp [entryStale, hcid, hc, hs, hst]
            · exact ih p hp
          · simp only [hcid, if_neg hc, hs, if_neg hst, List.mem_cons] at hp
            rcases hp with rfl | hp
            · simp [entryStale, hcid, hc, hs]
            · exact ih p hp

theorem syncEntries_stable_fixed (cs : List (String × String)) (reg : Registry)
    (h : ∀ p ∈ reg, entryStale cs p.2 = false) :
    syncEntries cs reg = (reg, false) := by
  induction reg with
  | nil => simp [syncEntries]
  | cons hd tl ih =>
    obtain ⟨name, r⟩ := hd
    have hhd : entryStale cs r = false := h (name, r) (List.mem_cons_self _ _)
    have htl : syncEntries cs tl = (tl, false) :=
      ih (fun p hp => h p (List.mem_cons_of_mem _ hp))
    simp only [syncEntries, htl]
    match hcid : r.container_id with
    | none => simp
    | some cid =>
      by_cases hc : cid = ""
      · simp [hc]
      · match hs : lookupStatus cs cid with
        | none => simp [entryStale, hcid, hc, hs] at hhd
        | some live =>
          have hst : r.status = some live := by
            simp [entryStale, hcid, hc, hs] at hhd
            exact_mod_cast hhd
          simp [hc, hs, hst]

/-- Deleted entries of a reconciliation pass: the pass can only keep an
entry unchanged, update its `status`, or drop it; an entry whose
`container_id` is not truthy is always kept unchanged. -/
theorem syncEntries_keeps_untruthy (cs : List (String × String)) (reg : Registry)
    (k : String) (r : EnvRecord) (hl : lookupEnv reg k = some r)
    (ht : pyTruthy r.container_id = false) :
    lookupEnv (syncEntries cs reg).1 k = some r := by
  induction reg with
  | nil => simp [lookupEnv] at hl
  | cons hd tl ih =>
    obtain ⟨name, r0⟩ := hd
    simp only [lookupEnv] at hl
    by_cases hk : name = k
    · rw [if_pos hk] at hl
      injection hl with hr
      subst hr
      simp only [syncEntries]
      match hcid : r0.container_id with
      | none => simp [lookupEnv, hk]
      | some cid =>
        have hc : cid = "" := by
          simp [pyTruthy, hcid] at ht
          exact ht
        simp [hc, lookupEnv, hk]
    · rw [if_neg hk] at hl
      have tail := ih hl
      simp only [syncEntries]
      match hcid : r0.container_id with
      | none => simpa [lookupEnv, hk] using tail
      | some cid =>
        by_cases hc : cid = ""
        · simp only [if_pos hc]
          simpa [lookupEnv, hk] using tail
        · match hs : lookupStatus cs cid with
          | none => simpa [hc, hs] using tail
          | some live =>
            by_cases hst : r0.status = some live
            · simp only [if_neg hc, hs, if_pos hst]
              simpa [lookupEnv, hk] using tail
            · simp only [if_neg hc, hs, if_neg hst]
              simpa [lookupEnv, hk] using tail

/-- Conversely, a key that disappears in a reconciliation pass belonged to a
record with a truthy `container_id` absent from the live container set. -/
theorem syncEntries_removed_char (cs : List (String × String)) (reg : Registry)
    (k : String) (r : EnvRecord) (hl : lookupEnv reg k = some r)
    (hg : lookupEnv (syncEntries cs reg).1 k = none) :
    pyTruthy r.container_id = true ∧
      lookupStatus cs (r.container_id.getD "") = none := by
  induction reg with
  | nil => simp [lookupEnv] at hl
  | cons hd tl ih =>
    obtain ⟨name, r0⟩ := hd
    simp only [lookupEnv] at hl
    simp only [syncEntries] at hg
    by_cases hk : name = k
    · rw [if_pos hk] at hl
      injection hl with hr
      subst hr
      match hcid : r0.container_id with
      | none => simp [hcid, lookupEnv, hk] at hg
      | some cid =>
        by_cases hc : cid = ""
        · simp [hcid, hc, lookupEnv, hk] at hg
        · match hs : lookupStatus cs cid with
          | none => simp [pyTruthy, hcid, hc, hs]
          | some live =>
            by_cases hst : r0.status = some live
            · simp [hcid, hc, hs, hst, lookupEnv, hk] at hg
            · simp [hcid, hc, hs, hst, lookupEnv, hk] at hg
    · rw [if_neg hk] at hl
      apply ih hl
      match hcid : r0.container_id with
      | none => simpa [hcid, lookupEnv, hk] using hg
      | some cid =>
        by_cases hc : cid = ""
        · simpa [hcid, hc, lookupEnv, hk] using hg
        · match hs : lookupStatus cs cid with
          | none => simpa [hcid, hc, hs] using hg
          | some live =>
            by_cases hst : r0.status = some live
            · simpa [hcid, hc, hs, hst, lookupEnv, hk] using hg
            · simpa [hcid, hc, hs, hst, lookupEnv, hk] using hg

/-- C4: Reconcile idempotence.  Calling `sync_registry_with_containers`
twice with the same live-container listing and no intervening registry
change performs no write (hence no `registry-update` broadcast) the second
time; and the first call writes exactly when some record is stale — its
truthy `container_id` vanished from the live set (record removed) or its
cached status differs from the live one (status changed). -/
theorem C4_reconcile_idempotent (avail : Bool) (reg : Registry)
    (csr : Option (List (String × String))) :
    (sync_registry_with_containers avail
        (sync_registry_with_containers avail reg csr).registry csr).wrote = false ∧
    ((sync_registry_with_containers avail reg csr).wrote = true ↔
      (avail = true ∧ ∃ cs, csr = some cs ∧ reg.any (fun p => entryStale cs p.2) = true)) := by
  constructor
  · match avail with
    | false => simp [sync_registry_with_containers]
    | true =>
      match csr with
      | none => simp [sync_registry_with_containers]
      | some cs =>
        simp only [sync_registry_with_containers, if_neg (by simp : ¬(true = false))]
        have hstable := syncEntries_result_stable cs reg
        by_cases hm : (syncEntries cs reg).2
        · simp only [if_pos hm]
          have hfix := syncEntries_stable_fixed cs (syncEntries cs reg).1 hstable
          simp [hfix]
        · simp only [if_neg hm]
          have hfix := syncEntries_stable_fixed cs (syncEntries cs reg).1 hstable
          simp [hfix]
  · match avail with
    | false => simp [sync_registry_with_containers]
    | true =>
      match csr with
      | none => simp [sync_registry_with_containers]
      | some cs =>
        simp only [sync_registry_with_containers, if_neg (by simp : ¬(true = false))]
        by_cases hm : (syncEntries cs reg).2
        · have hany : reg.any (fun p => entryStale cs p.2) = true := by
            rw [← syncEntries_modified_iff cs reg]; exact hm
          simp only [if_pos hm]
          exact ⟨fun _ => ⟨by trivial, cs, rfl, hany⟩, fun _ => by trivial⟩
        · have hany : reg.any (fun p => entryStale cs p.2) = false := by
            rw [← syncEntries_modified_iff cs reg]; exact eq_false_of_ne_true hm
          simp only [if_neg hm]
          constructor
          · intro hfalse
            exact absurd hfalse (by simp)
          · rintro ⟨-, cs2, hcs, hany2⟩
            injection hcs with hcs
            subst hcs
            rw [hany] at hany2
            cases hany2

/-- C10: the reconciler never prunes (nor status-refreshes) a record whose
`container_id` is missing, `None`, or empty — such a record survives the
pass byte-for-byte even though no live container backs it; and a record
that is removed by the pass necessarily had a truthy `container_id` that is
absent from the labeled live-container set. -/
theorem C10_sync_keeps_cidless_records (clientAvailable : Bool) (reg : Registry)
    (cs : List (String × String)) (k : String) (r : EnvRecord)
    (hl : lookupEnv reg k = some r) :
    (pyTruthy r.container_id = false →
      lookupEnv (sync_registry_with_containers clientAvailable reg (some cs)).registry k
        = some r) ∧
    (lookupEnv (sync_registry_with_containers clientAvailable reg (some cs)).registry k
        = none →
      pyTruthy r.container_id = true ∧
        lookupStatus cs (r.container_id.getD "") = none) := by
  match clientAvailable with
  | false =>
    refine ⟨fun _ => ?_, fun hnone => ?_⟩
    · exact hl
    · have hnone2 : lookupEnv reg k = none := hnone
      rw [hl] at hnone2
      cases hnone2
  | true =>
    have hreg : (sync_registry_with_containers true reg (some cs)).registry
        = (syncEntries cs reg).1 := by
      simp only [sync_registry_with_containers, if_neg (by simp : ¬(true = false))]
      by_cases hm : (syncEntries cs reg).2 <;> simp [hm]
    rw [hreg]
    exact ⟨fun ht => syncEntries_keeps_untruthy cs reg k r hl ht,
      fun hnone => syncEntries_removed_char cs reg k r hl hnone⟩

/-- `BASE_PORT = 8100` (module constant). -/
def BASE_PORT : Nat := 8100

/-- `used_ports = [env['port'] for env in registry.values()]`. -/
def usedPorts (reg : Registry) : List Nat := reg.map (fun p => p.2.port)

/-- If `p` occurs in `used`, filtering for values `≥ p + 1` drops strictly
more than filtering for values `≥ p` (termination measure of the
port-search loop). -/
theorem filter_ge_succ_lt (p : Nat) (used : List Nat) (hmem : p ∈ used) :
    (used.filter (fun x => decide (p + 1 ≤ x))).length
      < (used.filter (fun x => decide (p ≤ x))).length := by
  induction used with
  | nil => cases hmem
  | cons a l ih =>
    have hmono : (l.filter (fun x => decide (p + 1 ≤ x))).length
        ≤ (l.filter (fun x => decide (p ≤ x))).length := by
      refine List.Sublist.length_le (List.monotone_filter_right l ?_)
      intro x hx
      simp only [decide_eq_true_eq] at hx ⊢
      omega
    rcases List.mem_cons.mp hmem with rfl | hmem2
    · have h2 : ¬(p + 1 ≤ p) := by omega
      simp [List.filter_cons, h2]
      omega
    · have ihh := ih hmem2
      by_cases h1 : p ≤ a
      · by_cases h2 : p + 1 ≤ a
        · simp [List.filter_cons, h1, h2]
          omega
        · simp [List.filter_cons, h1, h2]
          omega
      · have h2 : ¬(p + 1 ≤ a) := by omega
        simp [List.filter_cons, h1, h2]
        omega

/-- The `port = BASE_PORT; while port in used_ports: port += 1` loop of
`get_next_port`, fuel-indexed so it evaluates structurally; the loop
visits strictly increasing ports, each iteration consuming one member of
`used`, so `used.length + 1` fuel always reaches the loop's exit
(pigeonhole, `findFreePort_spec`). -/
def findFreePort (used : List Nat) : Nat → Nat → Nat
  | 0, port => port
  | fuel + 1, port =>
    if port ∈ used then findFreePort used fuel (port + 1) else port

theorem findFreePort_spec (used : List Nat) : ∀ fuel port,
    (used.filter (fun x => decide (port ≤ x))).length < fuel →
      findFreePort used fuel port ∉ used ∧
        port ≤ findFreePort used fuel port := by
  intro fuel
  induction fuel with
  | zero => exact fun port h => absurd h (Nat.not_lt_zero _)
  | succ f ih =>
    intro port hlen
    rw [findFreePort]
    by_cases h : port ∈ used
    · rw [if_pos h]
      have hlt := filter_ge_succ_lt port used h
      have hrec := ih (port + 1) (by omega)
      exact ⟨hrec.1, by omega⟩
    · rw [if_neg h]
      exact ⟨h, le_rfl⟩

/-- `get_next_port()`: first port from `BASE_PORT` upward not used by any
registry record. -/
def get_next_port (reg : Registry) : Nat :=
  findFreePort (usedPorts reg) ((usedPorts reg).length + 1) BASE_PORT

/-- `get_next_port` returns a port `≥ BASE_PORT` used by no record. -/
theorem get_next_port_spec (reg : Registry) :
    get_next_port reg ∉ usedPorts reg ∧ BASE_PORT ≤ get_next_port reg := by
  apply findFreePort_spec
  have := List.length_filter_le (fun x => decide (BASE_PORT ≤ x)) (usedPorts reg)
  omega

/-- ASCII kebab-safe characters (`[a-z0-9]` after lowercasing). -/
def kebabChar (c : Char) : Bool :=
  ('a' ≤ c && c ≤ 'z') || ('0' ≤ c && c ≤ '9')

/-- `name.strip('-')`. -/
def stripDashes (l : List Char) : List Char :=
  ((l.dropWhile (fun c => c == '-')).reverse.dropWhile (fun c => c == '-')).reverse

/-- `re.sub(r'-+', '-', name)`: collapse each run of hyphens to one, here
by dropping every hyphen directly followed by another. -/
def collapseDashes : List Char → List Char
  | [] => []
  | [c] => [c]
  | c :: d :: rest =>
    if c == '-' && d == '-' then collapseDashes (d :: rest)
    else c :: collapseDashes (d :: rest)

/-- `kebabify(name)`: lowercase (`Char.toLower` per character, as
Python's `str.lower` on the ASCII names exercised here), turn each
non-`[a-z0-9]` character into a hyphen and collapse the resulting runs
(together: `re.sub(r'[^a-z0-9]+', '-', ...)`), strip edge hyphens, then
collapse runs again (`re.sub(r'-+', '-', ...)`). -/
def kebabify (s : String) : String :=
  let lowered := s.data.map Char.toLower
  let mapped := lowered.map (fun c => if kebabChar c then c else '-')
  String.mk (collapseDashes (stripDashes (collapseDashes mapped)))

/-- Request body of `POST /create`, restricted to the fields the embedded
handler reads (with the handler's `data.get` defaults). -/
structure CreateRequest where
  name : String
  project : String := "general"
  mode : String := "workspace"
  ssh_host : String := ""
  git_url : String := ""
  parent_env_id : Option String := none
  creator_type : String := "user"
  creator_name : String := "Unknown"
  creation_source : String := "dashboard"
  deriving Repr, DecidableEq

/-- Responses of `create_environment`, by HTTP class. -/
inductive CreateResult where
  /-- 500: Docker unavailable / image missing / container-run exception. -/
  | serverError (msg : String)
  /-- 400: duplicate environment id. -/
  | badRequest (msg : String)
  /-- 401/403: GitHub token scope validation. -/
  | authError (code : Nat) (msg : String)
  /-- 200 `{success, env_id, port, url, ...}`. -/
  | ok (envId : String) (port : Nat) (url : String)
  deriving Repr, DecidableEq

/-- Early-exit outcomes of the external-service preflights in
`create_environment` between the duplicate-id check and `containers.run`:
the GitHub token scope check (→ 401/403) and the terminal-image
build / local image verification (→ 500). -/
inductive PreflightError where
  | authError (code : Nat) (msg : String)
  | serverError (msg : String)
  deriving Repr, DecidableEq

/-- `if parent_env_id and parent_env_id in registry:
registry[parent_env_id]['children'].append(env_id)` — run after the new
record was stored. -/
def attachToParent (reg1 : Registry) (parentOpt : Option String)
    (envId : String) : Registry :=
  match parentOpt with
  | some parent =>
    if parent ≠ "" ∧ (lookupEnv reg1 parent).isSome = true then
      modifyEnv reg1 parent
        (fun r => { r with children := r.children ++ [envId] })
    else reg1
  | none => reg1

/-- `create_environment()`.  `reg` is the registry as re-read after the
handler's initial `sync_registry_with_containers()` call.  `preflightError
= none` means every preflight passed.  `runOutcome` is the
`client.containers.run` call — `some h` is the new container's id
(`container.id`), `none` an exception (500).  `createdAt` is
`datetime.now().isoformat()`. -/
def create_environment (clientAvailable : Bool) (reg : Registry)
    (req : CreateRequest) (preflightError : Option PreflightError)
    (runOutcome : Option String) (createdAt : String) :
    CreateResult × Registry :=
  if clientAvailable = false then (.serverError "Docker not available", reg)
  else
    let envId := kebabify req.name
    if (lookupEnv reg envId).isSome then
      (.badRequest ("Environment already exists: " ++ envId), reg)
    else
      let port := get_next_port reg
      match preflightError with
      | some (.authError code msg) => (.authError code msg, reg)
      | some (.serverError msg) => (.serverError msg, reg)
      | none =>
        match runOutcome with
        | none => (.serverError "container run failed", reg)
        | some handle =>
          let record : EnvRecord := {
            display_name := req.name
            env_id := envId
            container_id := some handle
            port := port
            created := createdAt
            project := req.project
            mode := req.mode
            git_url := if req.mode = "git" then some req.git_url else none
            ssh_host := if req.mode = "ssh" then some req.ssh_host else none
            parent_env_id := req.parent_env_id
            creator_type := req.creator_type
            creator_name := req.creator_name
            creation_source := req.creation_source
            children := [] }
          (.ok envId port ("https://vscode.dev/tunnel/devfarm-" ++ envId),
            attachToParent (setEnv reg envId record) req.parent_env_id envId)

/-- Docker operations attempted by `delete_environment` (every one of them
is wrapped in `try/except: pass`, so only the attempt itself is
observable). -/
inductive DockerAction where
  | stopContainer (handle : String)
  | removeContainer (handle : String)
  | stopByName (name : String)
  | removeByName (name : String)
  | removeVolume (name : String)
  deriving Repr, DecidableEq

/-- Responses of `delete_environment`. -/
inductive DeleteResult where
  /-- 500: Docker unavailable. -/
  | serverError (msg : String)
  /-- 404: `Environment not found`. -/
  | notFound
  /-- 200: `{success: true}`. -/
  | ok
  deriving Repr, DecidableEq

/-- `delete_environment(env_name)`: 404 before touching anything when the
id is unknown; otherwise best-effort stop/remove of the container (by
recorded id, then by conventional name), volume removal, then
`del registry[env_name]` and save. -/
def delete_environment (clientAvailable : Bool) (reg : Registry)
    (envName : String) : DeleteResult × Registry × List DockerAction :=
  if clientAvailable = false then (.serverError "Docker not available", reg, [])
  else
    match lookupEnv reg envName with
    | none => (.notFound, reg, [])
    | some r =>
      let containerName := "devfarm-" ++ envName
      (.ok, eraseEnv reg envName,
        [.stopContainer (r.container_id.getD ""),
          .removeContainer (r.container_id.getD ""),
          .stopByName containerName, .removeByName containerName,
          .removeVolume ("devfarm-" ++ envName)])

theorem lookup_set_self (reg : Registry) (k : String) (v : EnvRecord) :
    lookupEnv (setEnv reg k v) k = some v := by
  induction reg with
  | nil => simp [setEnv, lookupEnv]
  | cons hd tl ih =>
    obtain ⟨k0, v0⟩ := hd
    by_cases hk : k0 = k
    · simp [setEnv, hk, lookupEnv]
    · simp [setEnv, hk, lookupEnv, ih]

theorem lookup_modify_self (reg : Registry) (k : String)
    (f : EnvRecord → EnvRecord) :
    lookupEnv (modifyEnv reg k f) k = (lookupEnv reg k).map f := by
  induction reg with
  | nil => simp [modifyEnv, lookupEnv]
  | cons hd tl ih =>
    obtain ⟨k0, v0⟩ := hd
    by_cases hk : k0 = k
    · simp [modifyEnv, hk, lookupEnv]
    · simp [modifyEnv, hk, lookupEnv, ih]

theorem lookup_modify_ne (reg : Registry) (k i : String)
    (f : EnvRecord → EnvRecord) (h : k ≠ i) :
    lookupEnv (modifyEnv reg k f) i = lookupEnv reg i := by
  induction reg with
  | nil => simp [modifyEnv, lookupEnv]
  | cons hd tl ih =>
    obtain ⟨k0, v0⟩ := hd
    by_cases hk : k0 = k
    · subst hk
      simp [modifyEnv, lookupEnv, h, ih]
    · simp [modifyEnv, hk, lookupEnv, ih]

theorem lookup_erase_ne (reg : Registry) (c k : String) (h : k ≠ c) :
    lookupEnv (eraseEnv reg c) k = lookupEnv reg k := by
  induction reg with
  | nil => simp [eraseEnv]
  | cons hd tl ih =>
    obtain ⟨k0, v0⟩ := hd
    by_cases hc : k0 = c
    · subst hc
      have hnk : ¬(k0 = k) := fun hh => h hh.symm
      simp [eraseEnv, lookupEnv, hnk]
    · simp [eraseEnv, hc, lookupEnv, ih]

/-- Concrete instantiation of `C10_sync_keeps_cidless_records`: a registry
holding one record without a `container_id` and one whose container
vanished; the first survives reconciliation untouched, the second is
removed. -/
theorem C10_sync_keeps_cidless_records_witness :
    lookupEnv [("a", { container_id := none : EnvRecord }),
        ("b", { container_id := some "dead" : EnvRecord })] "a"
      = some { container_id := none } ∧
    (pyTruthy (none : Option String) = false →
      lookupEnv (sync_registry_with_containers true
          [("a", { container_id := none : EnvRecord }),
            ("b", { container_id := some "dead" : EnvRecord })] (some [])).registry "a"
        = some { container_id := none }) := by
  refine ⟨by decide, fun _ => ?_⟩
  exact (C10_sync_keeps_cidless_records true
    [("a", { container_id := none }), ("b", { container_id := some "dead" })]
    [] "a" { container_id := none } (by decide)).1 (by decide)

/-- Attaching a child to its parent only edits `children`: every lookup
keeps its `container_id` and `port`. -/
theorem lookup_attach_cid_port (reg1 : Registry) (parentOpt : Option String)
    (envId k : String) :
    (lookupEnv (attachToParent reg1 parentOpt envId) k).map
        (fun r => (r.container_id, r.port))
      = (lookupEnv reg1 k).map (fun r => (r.container_id, r.port)) := by
  match parentOpt with
  | none => rfl
  | some parent =>
    rw [attachToParent]
    by_cases hcond : parent ≠ "" ∧ (lookupEnv reg1 parent).isSome = true
    · rw [if_pos hcond]
      by_cases hpk : parent = k
      · subst hpk
        rw [lookup_modify_self]
        cases lookupEnv reg1 parent <;> rfl
      · rw [lookup_modify_ne reg1 parent k _ hpk]
    · rw [if_neg hcond]

/-- The record just stored is found back after the parent attach, with its
`container_id` and `port` intact. -/
theorem lookup_attach_set (reg : Registry) (parentOpt : Option String)
    (envId : String) (v : EnvRecord) :
    ∃ r, lookupEnv (attachToParent (setEnv reg envId v) parentOpt envId) envId
        = some r ∧ r.container_id = v.container_id ∧ r.port = v.port := by
  have hmap := lookup_attach_cid_port (setEnv reg envId v) parentOpt envId envId
  rw [lookup_set_self] at hmap
  obtain ⟨r, hr, hproj⟩ := Option.map_eq_some'.mp hmap
  exact ⟨r, hr, congrArg Prod.fst hproj, congrArg Prod.snd hproj⟩

/-- C5: Create postconditions.  Whenever `create_environment` answers
success, the record stored under the returned environment id carries
exactly the container handle returned by the runtime `containers.run`
call, and its port is `get_next_port` of the registry — which, for every
registry, is a port `≥ BASE_PORT` not used by any existing record. -/
theorem C5_create_postconditions (avail : Bool) (reg : Registry)
    (req : CreateRequest) (pf : Option PreflightError) (ro : Option String)
    (ts : String) (i : String) (p : Nat) (u : String) (reg2 : Registry)
    (hok : create_environment avail reg req pf ro ts = (.ok i p u, reg2)) :
    (∃ handle, ro = some handle ∧
      ∃ r, lookupEnv reg2 i = some r ∧ r.container_id = some handle ∧
        r.port = get_next_port reg) ∧
    p = get_next_port reg ∧
    get_next_port reg ∉ usedPorts reg ∧ BASE_PORT ≤ get_next_port reg := by
  have hports := get_next_port_spec reg
  match avail with
  | false =>
    rw [create_environment] at hok
    simp at hok
  | true =>
    rw [create_environment] at hok
    rw [if_neg (by simp : ¬(true = false))] at hok
    simp only [] at hok
    by_cases hdup : (lookupEnv reg (kebabify req.name)).isSome
    · rw [if_pos hdup] at hok
      simp at hok
    · rw [if_neg hdup] at hok
      match pf with
      | some (.authError code msg) => simp at hok
      | some (.serverError msg) => simp at hok
      | none =>
        match ro with
        | none => simp at hok
        | some handle =>
          simp only [Prod.mk.injEq, CreateResult.ok.injEq] at hok
          obtain ⟨⟨hi, hp, -⟩, hreg2⟩ := hok
          subst hi
          subst hp
          subst hreg2
          refine ⟨⟨handle, rfl, ?_⟩, rfl, hports.1, hports.2⟩
          exact lookup_attach_set reg req.parent_env_id (kebabify req.name) _

/-- Concrete instantiation of `C5_create_postconditions`: creating
`My Env` in an empty registry with container handle `cid-1` yields id
`my-env` on port `8100` with that handle stored. -/
theorem C5_create_postconditions_witness :
    create_environment true [] { name := "My Env" } none (some "cid-1") "t0"
        = (.ok "my-env" 8100 "https://vscode.dev/tunnel/devfarm-my-env",
          [("my-env",
            { display_name := "My Env", env_id := "my-env",
              container_id := some "cid-1", port := 8100, created := "t0",
              project := "general", mode := "workspace",
              creator_type := "user", creator_name := "Unknown",
              creation_source := "dashboard" })]) ∧
    (∃ handle, (some "cid-1" : Option String) = some handle ∧
      ∃ r, lookupEnv [("my-env",
            { display_name := "My Env", env_id := "my-env",
              container_id := some "cid-1", port := 8100, created := "t0",
              project := "general", mode := "workspace",
              creator_type := "user", creator_name := "Unknown",
              creation_source := "dashboard" })] "my-env" = some r ∧
        r.container_id = some handle ∧ r.port = get_next_port []) := by
  constructor
  · decide
  · exact (C5_create_postconditions true [] { name := "My Env" } none
      (some "cid-1") "t0" "my-env" 8100
      "https://vscode.dev/tunnel/devfarm-my-env" _ (by decide)).1

/-- C7: Deleting an unknown environment id is a 404 no-op: the registry is
returned unchanged and no container or volume operation is attempted. -/
theorem C7_delete_unknown_noop (reg : Registry) (envName : String)
    (h : lookupEnv reg envName = none) :
    delete_environment true reg envName = (.notFound, reg, []) := by
  rw [delete_environment]
  simp [h]

/-- Concrete instantiation of `C7_delete_unknown_noop` on a one-record
registry and a missing id. -/
theorem C7_delete_unknown_noop_witness :
    lookupEnv [("a", { container_id := some "c1" : EnvRecord })] "b" = none ∧
    delete_environment true [("a", { container_id := some "c1" : EnvRecord })] "b"
      = (.notFound, [("a", { container_id := some "c1" : EnvRecord })], []) :=
  ⟨by decide, C7_delete_unknown_noop _ "b" (by decide)⟩

/-- C9: Deleting a child environment removes only the child's record: the
parent record is untouched, so the child's id remains dangling in the
parent's `children` list (no detach on delete), and every other record is
unchanged. -/
theorem C9_delete_keeps_parent_children (reg : Registry) (c p : String)
    (rc rp : EnvRecord) (hne : c ≠ p)
    (hc : lookupEnv reg c = some rc) (hpar : rc.parent_env_id = some p)
    (hp : lookupEnv reg p = some rp) (hchild : c ∈ rp.children) :
    (delete_environment true reg c).1 = .ok ∧
    (delete_environment true reg c).2.1 = eraseEnv reg c ∧
    lookupEnv (eraseEnv reg c) p = some rp ∧ c ∈ rp.children ∧
    (∀ k, k ≠ c → lookupEnv (eraseEnv reg c) k = lookupEnv reg k) := by
  refine ⟨?_, ?_, ?_, hchild, fun k hk => lookup_erase_ne reg c k hk⟩
  · rw [delete_environment]
    simp [hc]
  · rw [delete_environment]
    simp [hc]
  · rw [lookup_erase_ne reg c p (fun hh => hne hh.symm)]
    exact hp

/-- Concrete instantiation of `C9_delete_keeps_parent_children`: after
deleting `child` (whose `parent_env_id` is `par`), `par` still lists
`child` among its children. -/
theorem C9_delete_keeps_parent_children_witness :
    lookupEnv (eraseEnv
        [("par", { children := ["child"] : EnvRecord }),
          ("child", { parent_env_id := some "par" : EnvRecord })] "child") "par"
      = some { children := ["child"] } ∧
    "child" ∈ ({ children := ["child"] : EnvRecord }).children := by
  have h := C9_delete_keeps_parent_children
    [("par", { children := ["child"] }),
      ("child", { parent_env_id := some "par" })] "child" "par"
    { parent_env_id := some "par" } { children := ["child"] }
    (by decide) (by decide) (by decide) (by decide) (by decide)
  exact ⟨h.2.2.1, h.2.2.2.1⟩

/-! ## Container stats (`get_container_stats`) -/

/-- The fields of one `container.stats(stream=False)` sample that
`get_container_stats` reads (counters as integers; `memUsage`/`memLimit`
already carry the handler's `.get('usage', 0)` / `.get('limit', 1)`
defaults). -/
structure StatsSample where
  cpuTotalUsage : Int
  precpuTotalUsage : Int
  systemCpuUsage : Int
  presystemCpuUsage : Int
  memUsage : Int
  memLimit : Int
  deriving Repr, DecidableEq

/-- The CPU expression of `get_container_stats`:
`(cpu_delta / system_delta) * 100.0 if system_delta > 0 else 0`, with each
delta `current - previous`.  Exact rational arithmetic stands in for
Python floats. -/
def cpu_percent (s : StatsSample) : ℚ :=
  let cpu_delta : ℚ := (s.cpuTotalUsage : ℚ) - (s.precpuTotalUsage : ℚ)
  let system_delta : ℚ := (s.systemCpuUsage : ℚ) - (s.presystemCpuUsage : ℚ)
  if system_delta > 0 then (cpu_delta / system_delta) * 100 else 0

/-- Python `round(x)` at integer precision: round half to even. -/
def roundHalfEven (q : ℚ) : ℤ :=
  let f := q - (⌊q⌋ : ℚ)
  if f < 1/2 then ⌊q⌋
  else if 1/2 < f then ⌊q⌋ + 1
  else if ⌊q⌋ % 2 = 0 then ⌊q⌋ else ⌊q⌋ + 1

/-- Python `round(x, 1)`. -/
def round1 (q : ℚ) : ℚ := (roundHalfEven (q * 10) : ℚ) / 10

/-- Return value of `get_container_stats`. -/
structure ContainerStats where
  cpu : ℚ
  memory : ℚ
  memory_mb : ℚ
  deriving Repr, DecidableEq

/-- `get_container_stats(container)`: `none` models any exception while
fetching or reading the stats sample (the `except` arm returns all-zero
stats). -/
def get_container_stats (sample : Option StatsSample) : ContainerStats :=
  match sample with
  | none => { cpu := 0, memory := 0, memory_mb := 0 }
  | some s =>
    let mem_percent : ℚ :=
      if (s.memLimit : ℚ) > 0 then ((s.memUsage : ℚ) / (s.memLimit : ℚ)) * 100
      else 0
    { cpu := round1 (cpu_percent s)
      memory := round1 mem_percent
      memory_mb := round1 ((s.memUsage : ℚ) / 1024 / 1024) }

/-! ## Update progress singleton and `POST /api/system/update/start` -/

/-- One element of `UPDATE_PROGRESS['stages']`. -/
structure StageRecord where
  stage : String
  status : String
  message : Option String
  deriving Repr, DecidableEq

/-- The in-memory `UPDATE_PROGRESS` dict.  `stage`/`status` are the
top-level mirrors of the latest record that `_append_stage` maintains
(absent at module init). -/
structure UpdateProgress where
  running : Bool
  success : Option Bool
  stages : List StageRecord
  error : Option String
  stage : Option String
  status : Option String
  deriving Repr, DecidableEq

/-- `UPDATE_PROGRESS` as initialised at module load. -/
def initialUpdateProgress : UpdateProgress :=
  { running := false, success := none, stages := [], error := none,
    stage := none, status := none }

/-- `_reset_update_progress()`: clear and refill the singleton. -/
def _reset_update_progress : UpdateProgress :=
  { running := true, success := none, stages := [], error := none,
    stage := some "idle", status := some "idle" }

/-- `_append_stage(stage, status, message)`: append one record and mirror
the latest stage/status at top level (the SSE broadcast carries no
state). -/
def _append_stage (p : UpdateProgress) (stage status : String)
    (message : Option String) : UpdateProgress :=
  { p with stages := p.stages ++ [⟨stage, status, message⟩],
           stage := some stage, status := some status }

/-- `_set_update_result(success, error)`. -/
def _set_update_result (p : UpdateProgress) (success : Bool)
    (error : Option String) : UpdateProgress :=
  { p with success := some success, error := error, running := false }

/-- Response of `POST /api/system/update/start`. -/
structure StartResponse where
  code : Nat
  started : Bool
  deriving Repr, DecidableEq

/-- `system_update_start()`: under `UPDATE_LOCK`, answer 409
`{started: false}` when `UPDATE_PROGRESS['running']` is set, without
touching the singleton; otherwise reset it, append the `queued` record,
spawn `_run_system_update_thread`, and answer `{started: true}`.  The
final component records whether a run was spawned. -/
def system_update_start (p : UpdateProgress) :
    StartResponse × UpdateProgress × Bool :=
  if p.running then ({ code := 409, started := false }, p, false)
  else
    ({ code := 200, started := true },
      _append_stage _reset_update_progress "queued" "info"
        (some "Update request accepted"),
      true)

/-- C1: Single-flight update start.  While `running` is true the start
endpoint answers 409 `{started: false}`, leaves the whole progress
singleton — in particular `stages` — untouched, and spawns no run; and a
run is only ever spawned from a non-running state. -/
theorem C1_single_flight_start (p : UpdateProgress) :
    (p.running = true →
      system_update_start p
        = ({ code := 409, started := false }, p, false)) ∧
    ((system_update_start p).2.2 = true → p.running = false) := by
  constructor
  · intro h
    rw [system_update_start]
    simp [h]
  · intro h
    by_cases hr : p.running
    · rw [system_update_start] at h
      simp [hr] at h
    · exact eq_false_of_ne_true hr

/-- Concrete instantiation of `C1_single_flight_start`: starting while a
run with one recorded stage is in flight is refused and changes nothing. -/
theorem C1_single_flight_start_witness :
    system_update_start
        { running := true, success := none,
          stages := [⟨"init", "starting", none⟩], error := none,
          stage := some "init", status := some "starting" }
      = ({ code := 409, started := false },
        { running := true, success := none,
          stages := [⟨"init", "starting", none⟩], error := none,
          stage := some "init", status := some "starting" }, false) :=
  (C1_single_flight_start _).1 (by decide)

/-! ## Readiness prober (`is_env_ready`) -/

/-- `if port:` truthiness for the optional host-mapped port. -/
def pyTruthyNat : Option Nat → Bool
  | none => false
  | some n => n ≠ 0

/-- `is_env_ready(container_name, port)` as written in `app.py`.
`containerGet` is the `client.containers.get(container_name)` outcome:
`none` = exception (swallowed), `some none` = container found with no (or
empty) `State.Health` dict, `some (some s)` = health dict with status `s`.
`localhostGet` is the `requests.get('http://localhost:{port}',
timeout=1.5)` outcome: `none` = exception (swallowed), `some c` = HTTP
status code `c`.  The code consults the health check first (healthy →
true, unhealthy/starting → false) and otherwise probes only
`localhost:{port}` — it issues no request to the container's internal
network address. -/
def is_env_ready (clientAvailable : Bool)
    (containerGet : Option (Option String)) (port : Option Nat)
    (localhostGet : Option Nat) : Bool :=
  let healthVerdict : Option Bool :=
    if clientAvailable then
      match containerGet with
      | some (some s) =>
        if s = "healthy" then some true
        else if s = "unhealthy" ∨ s = "starting" then some false
        else none
      | _ => none
    else none
  match healthVerdict with
  | some b => b
  | none =>
    if pyTruthyNat port then
      match localhostGet with
      | some code => decide (200 ≤ code ∧ code < 400)
      | none => false
    else false

/-- Modelled from the spec: the `isReady` algorithm of §4.3 and of the
repository's own tests (`test_is_env_ready_falls_back_to_http`,
`test_is_env_ready_http_fallback`), which `app.py` no longer implements —
between the health check and the localhost probe it attempts an HTTP GET
against the container's internal network address (`http://{name}:8080`),
`internalGet` being that call's outcome, and treats 2xx/3xx as ready
before ever trying the host-mapped port. -/
def isReady_spec (clientAvailable : Bool)
    (containerGet : Option (Option String)) (internalGet : Option Nat)
    (port : Option Nat) (localhostGet : Option Nat) : Bool :=
  let healthVerdict : Option Bool :=
    if clientAvailable then
      match containerGet with
      | some (some s) =>
        if s = "healthy" then some true
        else if s = "unhealthy" ∨ s = "starting" then some false
        else none
      | _ => none
    else none
  match healthVerdict with
  | some b => b
  | none =>
    let internalReady :=
      match internalGet with
      | some code => decide (200 ≤ code ∧ code < 400)
      | none => false
    if internalReady then true
    else
      if pyTruthyNat port then
        match localhostGet with
        | some code => decide (200 ≤ code ∧ code < 400)
        | none => false
      else false

/-- C2, divergence: on the repository's own test scenario — no health
check, the internal probe would answer 200, localhost answers 503 —
`app.py` returns `False` (it never issues the internal GET and 503 fails
the localhost check), while the specified algorithm returns `True` at the
internal-probe step.  The health-check and localhost steps themselves
behave as claimed (`healthy` → true, `unhealthy`/`starting` → false,
exclusively). -/
theorem C2_readiness_missing_internal_probe :
    is_env_ready true (some none) (some 8123) (some 503) = false ∧
    isReady_spec true (some none) (some 200) (some 8123) (some 503) = true ∧
    is_env_ready true (some (some "healthy")) (some 8123) (some 503) = true ∧
    is_env_ready true (some (some "unhealthy")) (some 8123) (some 200) = false ∧
    is_env_ready true (some (some "starting")) (some 8123) (some 200) = false := by
  decide

/-- C6, counterexample to the claimed numeric example: with
`cpu_usage_delta = 300000` and `system_delta = 2000000` the code's
formula yields exactly 15.0 %, not ≈ 20.0 % (the spec's example values
divide to 0.15). -/
theorem C6_stats_20pct_counterexample :
    cpu_percent
        { cpuTotalUsage := 300000, precpuTotalUsage := 0,
          systemCpuUsage := 2000000, presystemCpuUsage := 0,
          memUsage := 0, memLimit := 1 } = 15 ∧
    (get_container_stats (some
        { cpuTotalUsage := 300000, precpuTotalUsage := 0,
          systemCpuUsage := 2000000, presystemCpuUsage := 0,
          memUsage := 0, memLimit := 1 })).cpu = 15 ∧
    |(15 : ℚ) - 20| > 1/10 := by
  refine ⟨?_, ?_, by norm_num⟩
  · rw [cpu_percent]
    norm_num
  · rw [get_container_stats]
    have h15 : cpu_percent
        { cpuTotalUsage := 300000, precpuTotalUsage := 0,
          systemCpuUsage := 2000000, presystemCpuUsage := 0,
          memUsage := 0, memLimit := 1 } = 15 := by
      rw [cpu_percent]; norm_num
    simp only [h15]
    rw [round1, roundHalfEven]
    norm_num

/-- C6 (amended): `get_container_stats` computes CPU percent exactly as
`(cpu_usage_delta / system_cpu_delta) * 100` with each delta
`current - previous`, returns 0 when the system delta is not positive, and
returns all-zero stats on any stats failure; at
`cpu_usage_delta = 300000`, `system_delta = 2000000` this is exactly
15.0 %. -/
theorem C6_stats_formula :
    (∀ s : StatsSample,
      (((s.systemCpuUsage : ℚ) - (s.presystemCpuUsage : ℚ)) > 0 →
        cpu_percent s
          = (((s.cpuTotalUsage : ℚ) - (s.precpuTotalUsage : ℚ))
              / ((s.systemCpuUsage : ℚ) - (s.presystemCpuUsage : ℚ))) * 100) ∧
      (((s.systemCpuUsage : ℚ) - (s.presystemCpuUsage : ℚ)) ≤ 0 →
        cpu_percent s = 0)) ∧
    get_container_stats none = { cpu := 0, memory := 0, memory_mb := 0 } ∧
    cpu_percent
        { cpuTotalUsage := 300000, precpuTotalUsage := 0,
          systemCpuUsage := 2000000, presystemCpuUsage := 0,
          memUsage := 0, memLimit := 1 } = 15 := by
  refine ⟨fun s => ⟨fun hpos => ?_, fun hnonpos => ?_⟩, rfl, ?_⟩
  · rw [cpu_percent]
    simp only [if_pos hpos]
  · rw [cpu_percent]
    simp only [if_neg (not_lt.mpr hnonpos)]
  · rw [cpu_percent]
    norm_num

/-- Concrete instantiation of `C6_stats_formula`: the repository's own
test sample (deltas 200 / 200) evaluates to 100 % through the formula. -/
theorem C6_stats_formula_witness :
    (((1000 : ℤ) : ℚ) - ((800 : ℤ) : ℚ)) > 0 ∧
    cpu_percent
        { cpuTotalUsage := 400, precpuTotalUsage := 200,
          systemCpuUsage := 1000, presystemCpuUsage := 800,
          memUsage := 0, memLimit := 1 } = 100 := by
  constructor
  · norm_num
  · have h := (C6_stats_formula.1
      { cpuTotalUsage := 400, precpuTotalUsage := 200,
        systemCpuUsage := 1000, presystemCpuUsage := 800,
        memUsage := 0, memLimit := 1 }).1 (by norm_num)
    rw [h]
    norm_num

/-! ## Update orchestrator (`_run_system_update_thread`)

The thread is straight-line Python whose only branching comes from the
outcomes of external calls (`subprocess.run` of git, the updater-container
builds, Docker lookups); those outcomes are gathered in `UpdateEnv`.  Each
source stage becomes a `StepResult`: the records it appends and whether it
hard-fails the run (the `_set_update_result(False, ...)`-and-`return`
exits).  Progress records whose presence depends only on wall-clock timing
or on transient updater-container state (the periodic `Still building...`
ticks and the `Creating updater container...` notice) are elided; stage
names, statuses, ordering and all control flow are kept. -/

/-- `REPO_PATH` default (`HOST_REPO_PATH` unset). -/
def REPO_PATH : String := "/opt/dev-farm"

/-- Outcome of a checked `subprocess.run` of git: captured stdout, or the
`CalledProcessError` stderr. -/
inductive ProcOutcome where
  | ok (stdout : String)
  | err (stderr : String)
  deriving Repr, DecidableEq

/-- Outcome of the `git fetch origin main` call (30 s timeout). -/
inductive FetchOutcome where
  | ok
  | timeout
  | err (stderr : String)
  deriving Repr, DecidableEq

/-- Outcome of one updater-container image build: polled to completion
with an exit code and captured log tail, five-minute poll timeout, or a
Python exception. -/
inductive BuildOutcome where
  | completed (exitCode : Nat) (logTail : String)
  | timeout
  | exc (msg : String)
  deriving Repr, DecidableEq

/-- All external-world outcomes one run of the update thread observes, in
program order. -/
structure UpdateEnv where
  githubToken : Option String
  repoExists : Bool
  isGitRepo : Bool
  revParseHead : ProcOutcome
  stashResetOk : Bool
  fetch : FetchOutcome
  revParseRemote : ProcOutcome
  checkout : ProcOutcome
  pullExit : Nat
  pullOutput : List String
  revParseAfter : ProcOutcome
  diffFiles : List String
  codeserverBuild : BuildOutcome
  pruneOk : Bool
  dashboardBuild : BuildOutcome
  dashImageExists : Bool
  restartScheduleErr : Option String
  deriving Repr, DecidableEq

/-- `current_sha`: the stripped `git rev-parse --short HEAD` output, or
the literal `unknown` when that call failed. -/
def currentSha (env : UpdateEnv) : String :=
  match env.revParseHead with
  | .ok s => s
  | .err _ => "unknown"

/-- Python `s[-n:]`. -/
def strTail (s : String) (n : Nat) : String :=
  String.mk (s.data.drop (s.data.length - n))

/-- Python `'\n'.join(lines[-n:])`. -/
def lastLines (lines : List String) (n : Nat) : String :=
  String.intercalate "\n" (lines.drop (lines.length - n))

/-- Is `p` a prefix of `h` (char lists)? -/
def listPrefixB : List Char → List Char → Bool
  | [], _ => true
  | _ :: _, [] => false
  | p :: ps, h :: hs => p == h && listPrefixB ps hs

/-- Does the haystack contain the pattern as a contiguous run? -/
def hasSub : List Char → List Char → Bool
  | [], pat => listPrefixB pat []
  | h :: hs, pat => listPrefixB pat (h :: hs) || hasSub hs pat

/-- Python `pat in hay` on strings. -/
def containsStr (hay pat : String) : Bool := hasSub hay.data pat.data

/-- What one source stage contributes: the progress records it appends and
the hard-failure error it records via `_set_update_result(False, ...)`
before returning, if any. -/
structure StepResult where
  records : List StageRecord
  failure : Option String
  deriving Repr, DecidableEq

def initStep : StepResult :=
  { records := [⟨"init", "starting", some "Initializing system update..."⟩],
    failure := none }

def validateStep (env : UpdateEnv) : StepResult :=
  let opening : StageRecord :=
    ⟨"validate", "starting", some "Validating environment..."⟩
  let tokenRec : StageRecord :=
    match env.githubToken with
    | some _ => ⟨"validate", "success", some "GitHub token configured"⟩
    | none => ⟨"validate", "info", some "No GitHub token (OK for public repos)"⟩
  if env.repoExists = false then
    { records := [opening, tokenRec,
        ⟨"validate", "error",
          some ("Repository path " ++ REPO_PATH ++ " does not exist")⟩],
      failure := some ("Repository path " ++ REPO_PATH ++ " does not exist") }
  else if env.isGitRepo = false then
    { records := [opening, tokenRec,
        ⟨"validate", "error", some (REPO_PATH ++ " is not a git repository")⟩],
      failure := some (REPO_PATH ++ " is not a git repository") }
  else
    { records := [opening, tokenRec,
        ⟨"validate", "success", some "Environment validated"⟩],
      failure := none }

def versionCheckStep (env : UpdateEnv) : StepResult :=
  { records := [⟨"version_check", "starting", some "Checking current version..."⟩]
      ++ (match env.revParseHead with
        | .ok sha =>
          [⟨"version_check", "success", some ("Current version: " ++ sha)⟩]
        | .err e =>
          [⟨"version_check", "error",
            some ("Could not determine current version: " ++ e)⟩]),
    failure := none }

def gitCleanStep (env : UpdateEnv) : StepResult :=
  { records := [⟨"git_clean", "starting", some "Stashing local changes..."⟩]
      ++ (if env.stashResetOk then
          [⟨"git_clean", "success", some "Working directory clean"⟩]
        else
          [⟨"git_clean", "warning", some "Clean warning (continuing)"⟩]),
    failure := none }

def gitFetchStep (env : UpdateEnv) : StepResult :=
  let opening : StageRecord :=
    ⟨"git_fetch", "starting", some "Fetching latest changes from GitHub..."⟩
  match env.fetch with
  | .ok =>
    { records := [opening, ⟨"git_fetch", "success", some "Fetch complete"⟩],
      failure := none }
  | .timeout =>
    { records := [opening,
        ⟨"git_fetch", "error", some "Fetch timed out. Check network connection."⟩],
      failure := some "Fetch timed out" }
  | .err e =>
    { records := [opening, ⟨"git_fetch", "error", some ("Fetch failed: " ++ e)⟩],
      failure := some ("Fetch failed: " ++ e) }

def versionCompareStep (env : UpdateEnv) : StepResult :=
  { records := [⟨"version_compare", "starting", some "Comparing versions..."⟩]
      ++ (match env.revParseRemote with
        | .ok remote =>
          if currentSha env = remote then
            [⟨"version_compare", "success",
              some ("Already up to date at " ++ currentSha env)⟩,
             ⟨"version_compare", "info",
              some "Force rebuild - will rebuild images anyway"⟩]
          else
            [⟨"version_compare", "success",
              some ("Update available: " ++ currentSha env ++ " -> " ++ remote)⟩]
        | .err _ =>
          [⟨"version_compare", "warning",
            some "Could not compare versions, continuing anyway..."⟩]),
    failure := none }

def gitCheckoutStep (env : UpdateEnv) : StepResult :=
  let opening : StageRecord :=
    ⟨"git_checkout", "starting", some "Ensuring main branch..."⟩
  match env.checkout with
  | .ok _ =>
    { records := [opening, ⟨"git_checkout", "success", some "On branch main"⟩],
      failure := none }
  | .err e =>
    { records := [opening,
        ⟨"git_checkout", "error", some ("Checkout failed: " ++ e)⟩],
      failure := some "Checkout failed" }

def gitPullStep (env : UpdateEnv) : StepResult :=
  let opening : StageRecord :=
    ⟨"git_pull", "starting", some "Pulling latest code..."⟩
  let progress := env.pullOutput.map
    (fun line => (⟨"git_pull", "progress", some ("  " ++ line)⟩ : StageRecord))
  if env.pullExit = 0 then
    { records := [opening] ++ progress
        ++ [⟨"git_pull", "success", some "Code updated successfully"⟩],
      failure := none }
  else
    let errMsg :=
      if env.pullOutput.isEmpty then "unknown error"
      else lastLines env.pullOutput 5
    { records := [opening] ++ progress
        ++ [⟨"git_pull", "error", some ("Pull failed: " ++ errMsg)⟩],
      failure := some ("git pull failed (exit " ++ toString env.pullExit ++ ")") }

def verifyUpdateStep (env : UpdateEnv) : StepResult :=
  { records := [⟨"verify_update", "starting", some "Verifying update..."⟩]
      ++ (match env.revParseAfter with
        | .ok newSha =>
          if newSha ≠ currentSha env then
            [⟨"verify_update", "success",
              some ("Updated: " ++ currentSha env ++ " -> " ++ newSha)⟩]
          else
            [⟨"verify_update", "success", some ("Version confirmed: " ++ newSha)⟩]
        | .err _ =>
          [⟨"verify_update", "warning", some "Could not verify update"⟩]),
    failure := none }

def checkChangesStep (env : UpdateEnv) : StepResult :=
  let files := env.diffFiles
  let hasFiles :=
    match files with
    | [] => false
    | f :: _ => f ≠ ""
  let count := (files.filter (fun f => f ≠ "")).length
  let codeserverChanged := files.any (fun f =>
    containsStr f "Dockerfile.code-server"
    || containsStr f "docker/config/startup.sh"
    || containsStr f "docker/config/mcp-copilot.json"
    || containsStr f "docker/config/workspace-settings.json"
    || containsStr f "docker/config/auto-approval-settings.json")
  let dashboardChanged := files.any (fun f =>
    containsStr f "dashboard/Dockerfile"
    || containsStr f "dashboard/templates/"
    || containsStr f "dashboard/app.py")
  { records := [⟨"check_changes", "starting", some "Analyzing changes..."⟩]
      ++ (if hasFiles then
          [⟨"check_changes", "progress", some (toString count ++ " files changed")⟩]
        else [])
      ++ [⟨"check_changes", "success",
            some ("Code-server changes: "
              ++ (if codeserverChanged then "YES" else "NO")
              ++ ", Dashboard changes: "
              ++ (if dashboardChanged then "YES" else "NO"))⟩,
          ⟨"check_changes", "info",
            some "Rebuilding both images to ensure everything is up to date..."⟩],
    failure := none }

def rebuildCodeserverStep (env : UpdateEnv) : StepResult :=
  let pre : List StageRecord :=
    [⟨"rebuild_codeserver", "starting", some "Rebuilding code-server image..."⟩,
     ⟨"rebuild_codeserver", "progress", some "Building... (this may take 1-2 minutes)"⟩]
  match env.codeserverBuild with
  | .completed exitCode log =>
    if exitCode = 0 then
      { records := pre
          ++ [⟨"rebuild_codeserver", "success",
                some "Code-server image rebuilt successfully"⟩,
              ⟨"rebuild_codeserver", "progress", some "Cleaning up old images..."⟩]
          ++ (if env.pruneOk then
              [⟨"rebuild_codeserver", "success", some "Old images cleaned up"⟩]
            else []),
        failure := none }
    else
      { records := pre
          ++ [⟨"rebuild_codeserver", "error",
                some ("Build failed (exit " ++ toString exitCode ++ "): "
                  ++ strTail log 400)⟩],
        failure := some "Failed to rebuild code-server image" }
  | .timeout =>
    { records := pre
        ++ [⟨"rebuild_codeserver", "error", some "Build timeout after 5 minutes"⟩],
      failure := some "Code-server build timeout" }
  | .exc m =>
    { records := pre ++ [⟨"rebuild_codeserver", "error", some ("Error: " ++ m)⟩],
      failure := some ("Code-server rebuild error: " ++ m) }

def rebuildDashboardStep (env : UpdateEnv) : StepResult :=
  let pre : List StageRecord :=
    [⟨"rebuild_dashboard", "starting", some "Rebuilding dashboard image..."⟩,
     ⟨"rebuild_dashboard", "progress", some "Building dashboard..."⟩]
  match env.dashboardBuild with
  | .completed exitCode log =>
    if exitCode = 0 then
      { records := pre
          ++ [⟨"rebuild_dashboard", "success", some "Dashboard image rebuilt"⟩],
        failure := none }
    else
      { records := pre
          ++ [⟨"rebuild_dashboard", "error",
                some ("Build failed (exit " ++ toString exitCode ++ "): "
                  ++ strTail log 400)⟩],
        failure := some "Failed to rebuild dashboard image" }
  | .timeout =>
    { records := pre
        ++ [⟨"rebuild_dashboard", "error",
              some "Dashboard build timeout after 5 minutes"⟩],
      failure := some "Dashboard build timeout" }
  | .exc m =>
    { records := pre ++ [⟨"restart_dashboard", "error", some ("Error: " ++ m)⟩],
      failure := some ("Dashboard restart error: " ++ m) }

def verifyImageStep (env : UpdateEnv) : StepResult :=
  if env.dashImageExists then
    { records := [⟨"restart_dashboard", "starting",
        some "Recreating dashboard container..."⟩],
      failure := none }
  else
    { records := [⟨"restart_dashboard", "error",
        some "Dashboard image not found - aborting restart"⟩],
      failure := some "Dashboard image verification failed" }

def restartScheduleStep (env : UpdateEnv) : StepResult :=
  let opening : StageRecord :=
    ⟨"restart_dashboard", "starting",
      some "Scheduling dashboard restart via updater..."⟩
  match env.restartScheduleErr with
  | none =>
    { records := [opening,
        ⟨"restart_dashboard", "success",
          some "Services restart scheduled (reloading in 10s...)"⟩],
      failure := none }
  | some m =>
    { records := [opening,
        ⟨"restart_dashboard", "error", some ("Failed to schedule restart: " ++ m)⟩,
        ⟨"restart_dashboard", "info",
          some "Manual restart required: docker compose up -d proxy dashboard"⟩],
      failure := some ("Restart scheduling failed: " ++ m) }

def completeStep : StepResult :=
  { records := [⟨"complete", "success",
      some "System update completed successfully!"⟩,
      ⟨"complete", "info",
        some "Existing environments will use new image on next restart/recreate"⟩],
    failure := none }

/-- The fixed stage pipeline of `_run_system_update_thread`, in source
order. -/
def updateSteps (env : UpdateEnv) : List StepResult :=
  [initStep, validateStep env, versionCheckStep env, gitCleanStep env,
    gitFetchStep env, versionCompareStep env, gitCheckoutStep env,
    gitPullStep env, verifyUpdateStep env, checkChangesStep env,
    rebuildCodeserverStep env, rebuildDashboardStep env,
    verifyImageStep env, restartScheduleStep env, completeStep]

/-- Append a step's records through `_append_stage`. -/
def appendRecords (p : UpdateProgress) (rs : List StageRecord) : UpdateProgress :=
  rs.foldl (fun q r => _append_stage q r.stage r.status r.message) p

/-- Execute the pipeline: append each step's records; on the first step
with a recorded hard failure, set the failed result and stop (the
source's `_set_update_result(False, err); return`); after the last step,
set the success result (`_set_update_result(True)`). -/
def runSteps : UpdateProgress → List StepResult → UpdateProgress
  | p, [] => _set_update_result p true none
  | p, s :: rest =>
    let p2 := appendRecords p s.records
    match s.failure with
    | some err => _set_update_result p2 false (some err)
    | none => runSteps p2 rest

/-- `_run_system_update_thread()`, started on the progress state `p` that
`system_update_start` left behind. -/
def _run_system_update_thread (env : UpdateEnv) (p : UpdateProgress) :
    UpdateProgress :=
  runSteps p (updateSteps env)

/-- The progress state the thread starts from: reset, plus the `queued`
record the start endpoint appends (what `system_update_start` produces
from a non-running state). -/
def startProgress : UpdateProgress :=
  _append_stage _reset_update_progress "queued" "info"
    (some "Update request accepted")

/-- The records a pipeline run emits: every step's records up to and
including the first hard-failing step. -/
def stepsTrace : List StepResult → List StageRecord
  | [] => []
  | s :: rest =>
    match s.failure with
    | some _ => s.records
    | none => s.records ++ stepsTrace rest

/-- The first hard failure of the pipeline, if any. -/
def firstFailure : List StepResult → Option String
  | [] => none
  | s :: rest =>
    match s.failure with
    | some m => some m
    | none => firstFailure rest

/-- Position of each stage name in the pipeline order. -/
def stageIdx : String → Nat
  | "queued" => 0
  | "init" => 1
  | "validate" => 2
  | "version_check" => 3
  | "git_clean" => 4
  | "git_fetch" => 5
  | "version_compare" => 6
  | "git_checkout" => 7
  | "git_pull" => 8
  | "verify_update" => 9
  | "check_changes" => 10
  | "rebuild_codeserver" => 11
  | "rebuild_dashboard" => 12
  | "restart_dashboard" => 13
  | "complete" => 14
  | _ => 15

/-- Stage indices never decrease along the list, starting no lower than
`lo` (so `monoFrom 0 rs` says the records appear in pipeline order). -/
def monoFrom (lo : Nat) : List StageRecord → Bool
  | [] => true
  | r :: rest => decide (lo ≤ stageIdx r.stage) && monoFrom (stageIdx r.stage) rest

/-- Well-formedness of one step against the pipeline order: its records'
stage positions are nondecreasing, they all lie between the incoming bound
`lo` and the step's own bound `n`, and if the step hard-fails it contains
an `error`-status record at its highest stage position. -/
def StepEntryOk (lo n : Nat) (s : StepResult) : Prop :=
  monoFrom lo s.records = true ∧
  (∀ r ∈ s.records, lo ≤ stageIdx r.stage ∧ stageIdx r.stage ≤ n) ∧
  (s.failure.isSome = true →
    ∃ fr ∈ s.records, fr.status = "error" ∧
      ∀ r ∈ s.records, stageIdx r.stage ≤ stageIdx fr.stage)

/-- Well-formedness of a step list: chained `StepEntryOk` bounds. -/
def StepsOk : Nat → List StepResult → Prop
  | _, [] => True
  | lo, s :: rest => ∃ n, lo ≤ n ∧ StepEntryOk lo n s ∧ StepsOk n rest

theorem appendRecords_spec (rs : List StageRecord) : ∀ p : UpdateProgress,
    (appendRecords p rs).stages = p.stages ++ rs ∧
    (appendRecords p rs).running = p.running ∧
    (appendRecords p rs).success = p.success ∧
    (appendRecords p rs).error = p.error := by
  induction rs with
  | nil => intro p; simp [appendRecords]
  | cons r rest ih =>
    intro p
    have h := ih (_append_stage p r.stage r.status r.message)
    simp only [appendRecords, List.foldl_cons] at h ⊢
    obtain ⟨h1, h2, h3, h4⟩ := h
    refine ⟨?_, ?_, ?_, ?_⟩
    · rw [h1]
      simp [_append_stage]
    · rw [h2]; rfl
    · rw [h3]; rfl
    · rw [h4]; rfl

theorem runSteps_stages (steps : List StepResult) : ∀ p : UpdateProgress,
    (runSteps p steps).stages = p.stages ++ stepsTrace steps := by
  induction steps with
  | nil => intro p; simp [runSteps, stepsTrace, _set_update_result]
  | cons s rest ih =>
    intro p
    match hf : s.failure with
    | some err =>
      simp only [runSteps, hf, stepsTrace, _set_update_result]
      exact (appendRecords_spec s.records p).1
    | none =>
      simp only [runSteps, hf, stepsTrace]
      rw [ih (appendRecords p s.records), (appendRecords_spec s.records p).1]
      simp [List.append_assoc]

theorem runSteps_result (steps : List StepResult) : ∀ p : UpdateProgress,
    (runSteps p steps).running = false ∧
    (∀ m, firstFailure steps = some m →
      (runSteps p steps).success = some false ∧
        (runSteps p steps).error = some m) ∧
    (firstFailure steps = none →
      (runSteps p steps).success = some true ∧
        (runSteps p steps).error = none) := by
  induction steps with
  | nil =>
    intro p
    refine ⟨rfl, ?_, fun _ => ⟨rfl, rfl⟩⟩
    intro m hm
    simp [firstFailure] at hm
  | cons s rest ih =>
    intro p
    have ih2 := ih (appendRecords p s.records)
    match hf : s.failure with
    | some err =>
      simp only [runSteps, hf, firstFailure, _set_update_result]
      refine ⟨by trivial, ?_, ?_⟩
      · intro m hm
        injection hm with hm
        subst hm
        exact ⟨by trivial, by trivial⟩
      · intro hnone
        cases hnone
    | none =>
      simp only [runSteps, hf, firstFailure]
      exact ih2

theorem stepsTrace_mem_lo (steps : List StepResult) : ∀ lo : Nat,
    StepsOk lo steps → ∀ r ∈ stepsTrace steps, lo ≤ stageIdx r.stage := by
  induction steps with
  | nil => intro lo _ r hr; simp [stepsTrace] at hr
  | cons s rest ih =>
    intro lo hok r hr
    obtain ⟨n, hln, ⟨-, hbound, -⟩, hrest⟩ := hok
    match hf : s.failure with
    | some m =>
      simp only [stepsTrace, hf] at hr
      exact (hbound r hr).1
    | none =>
      simp only [stepsTrace, hf, List.mem_append] at hr
      rcases hr with hr | hr
      · exact (hbound r hr).1
      · exact le_trans hln (ih n hrest r hr)

theorem monoFrom_weaken (rs : List StageRecord) (lo n : Nat) (h : lo ≤ n)
    (hm : monoFrom n rs = true) : monoFrom lo rs = true := by
  match rs with
  | [] => rfl
  | r :: rest =>
    simp only [monoFrom, Bool.and_eq_true, decide_eq_true_eq] at hm ⊢
    exact ⟨by omega, hm.2⟩

theorem monoFrom_uniform_append (xs : List StageRecord) :
    ∀ (ys : List StageRecord) (lo n : Nat), lo ≤ n →
      (∀ r ∈ xs, stageIdx r.stage = n) → monoFrom n ys = true →
      monoFrom lo (xs ++ ys) = true := by
  induction xs with
  | nil => exact fun ys lo n hln _ hys => monoFrom_weaken ys lo n hln hys
  | cons a xs ih =>
    intro ys lo n hln huni hys
    have ha : stageIdx a.stage = n := huni a (List.mem_cons_self _ _)
    simp only [List.cons_append, monoFrom, Bool.and_eq_true, decide_eq_true_eq]
    refine ⟨by omega, ?_⟩
    rw [ha]
    exact ih ys n n le_rfl (fun r hr => huni r (List.mem_cons_of_mem _ hr)) hys

theorem monoFrom_append_le (xs : List StageRecord) : ∀ (ys : List StageRecord)
    (lo n : Nat), lo ≤ n → monoFrom lo xs = true →
    (∀ r ∈ xs, stageIdx r.stage ≤ n) → monoFrom n ys = true →
    monoFrom lo (xs ++ ys) = true := by
  induction xs with
  | nil => exact fun ys lo n hln _ _ hys => monoFrom_weaken ys lo n hln hys
  | cons a xs ih =>
    intro ys lo n hln hmono hbound hys
    simp only [monoFrom, Bool.and_eq_true, decide_eq_true_eq] at hmono
    simp only [List.cons_append, monoFrom, Bool.and_eq_true, decide_eq_true_eq]
    refine ⟨hmono.1, ?_⟩
    exact ih ys (stageIdx a.stage) n (hbound a (List.mem_cons_self _ _))
      hmono.2 (fun r hr => hbound r (List.mem_cons_of_mem _ hr)) hys

theorem stepsTrace_mono (steps : List StepResult) : ∀ lo : Nat,
    StepsOk lo steps → monoFrom lo (stepsTrace steps) = true := by
  induction steps with
  | nil => intro lo _; rfl
  | cons s rest ih =>
    intro lo hok
    obtain ⟨n, hln, ⟨hmono, hbound, -⟩, hrest⟩ := hok
    match hf : s.failure with
    | some m =>
      simp only [stepsTrace, hf]
      exact hmono
    | none =>
      simp only [stepsTrace, hf]
      exact monoFrom_append_le s.records (stepsTrace rest) lo n hln hmono
        (fun r hr => (hbound r hr).2) (ih n hrest)

theorem stepsTrace_fail_bound (steps : List StepResult) : ∀ (lo : Nat)
    (m : String), StepsOk lo steps → firstFailure steps = some m →
    ∃ fr ∈ stepsTrace steps, fr.status = "error" ∧
      ∀ r ∈ stepsTrace steps, stageIdx r.stage ≤ stageIdx fr.stage := by
  induction steps with
  | nil => intro lo m _ hm; simp [firstFailure] at hm
  | cons s rest ih =>
    intro lo m hok hm
    obtain ⟨n, hln, ⟨-, hbound, herr⟩, hrest⟩ := hok
    match hf : s.failure with
    | some m0 =>
      obtain ⟨fr, hfr, hfrerr, hfrbound⟩ := herr (by rw [hf]; rfl)
      refine ⟨fr, ?_, hfrerr, ?_⟩
      · simp only [stepsTrace, hf]
        exact hfr
      · intro r hr
        simp only [stepsTrace, hf] at hr
        exact hfrbound r hr
    | none =>
      have hm2 : firstFailure rest = some m := by
        simp only [firstFailure, hf] at hm
        exact hm
      obtain ⟨fr, hfr, hfrerr, hfrbound⟩ := ih n m hrest hm2
      have hfrlo : n ≤ stageIdx fr.stage := stepsTrace_mem_lo rest n hrest fr hfr
      refine ⟨fr, ?_, hfrerr, ?_⟩
      · simp only [stepsTrace, hf, List.mem_append]
        exact Or.inr hfr
      · intro r hr
        simp only [stepsTrace, hf, List.mem_append] at hr
        rcases hr with hr | hr
        · exact le_trans (hbound r hr).2 hfrlo
        · exact hfrbound r hr

theorem initStep_ok :
    (∀ r ∈ initStep.records, stageIdx r.stage = 1) ∧
    (initStep.failure.isSome = true →
      ∃ fr ∈ initStep.records, fr.status = "error") := by
  decide

theorem validateStep_ok (env : UpdateEnv) :
    (∀ r ∈ (validateStep env).records, stageIdx r.stage = 2) ∧
    ((validateStep env).failure.isSome = true →
      ∃ fr ∈ (validateStep env).records, fr.status = "error") := by
  rw [validateStep]
  cases env.githubToken <;> cases env.repoExists <;> cases env.isGitRepo <;>
    simp [stageIdx]

theorem versionCheckStep_ok (env : UpdateEnv) :
    (∀ r ∈ (versionCheckStep env).records, stageIdx r.stage = 3) ∧
    ((versionCheckStep env).failure.isSome = true →
      ∃ fr ∈ (versionCheckStep env).records, fr.status = "error") := by
  rw [versionCheckStep]
  cases env.revParseHead <;> simp [stageIdx]

theorem gitCleanStep_ok (env : UpdateEnv) :
    (∀ r ∈ (gitCleanStep env).records, stageIdx r.stage = 4) ∧
    ((gitCleanStep env).failure.isSome = true →
      ∃ fr ∈ (gitCleanStep env).records, fr.status = "error") := by
  rw [gitCleanStep]
  cases env.stashResetOk <;> simp [stageIdx]

theorem gitFetchStep_ok (env : UpdateEnv) :
    (∀ r ∈ (gitFetchStep env).records, stageIdx r.stage = 5) ∧
    ((gitFetchStep env).failure.isSome = true →
      ∃ fr ∈ (gitFetchStep env).records, fr.status = "error") := by
  rw [gitFetchStep]
  cases env.fetch <;> simp [stageIdx]

theorem versionCompareStep_ok (env : UpdateEnv) :
    (∀ r ∈ (versionCompareStep env).records, stageIdx r.stage = 6) ∧
    ((versionCompareStep env).failure.isSome = true →
      ∃ fr ∈ (versionCompareStep env).records, fr.status = "error") := by
  rw [versionCompareStep]
  cases env.revParseRemote with
  | ok remote =>
    by_cases h : currentSha env = remote <;> simp [h, stageIdx]
  | err e => simp [stageIdx]

theorem gitCheckoutStep_ok (env : UpdateEnv) :
    (∀ r ∈ (gitCheckoutStep env).records, stageIdx r.stage = 7) ∧
    ((gitCheckoutStep env).failure.isSome = true →
      ∃ fr ∈ (gitCheckoutStep env).records, fr.status = "error") := by
  rw [gitCheckoutStep]
  cases env.checkout <;> simp [stageIdx]

theorem gitPullStep_ok (env : UpdateEnv) :
    (∀ r ∈ (gitPullStep env).records, stageIdx r.stage = 8) ∧
    ((gitPullStep env).failure.isSome = true →
      ∃ fr ∈ (gitPullStep env).records, fr.status = "error") := by
  rw [gitPullStep]
  by_cases h : env.pullExit = 0
  · simp [h, stageIdx]
    rintro a (⟨line, -, rfl⟩ | rfl) <;> rfl
  · simp [h, stageIdx]
    constructor
    · rintro a (⟨line, -, rfl⟩ | rfl) <;> rfl
    · exact ⟨_, Or.inr rfl, rfl⟩

theorem verifyUpdateStep_ok (env : UpdateEnv) :
    (∀ r ∈ (verifyUpdateStep env).records, stageIdx r.stage = 9) ∧
    ((verifyUpdateStep env).failure.isSome = true →
      ∃ fr ∈ (verifyUpdateStep env).records, fr.status = "error") := by
  rw [verifyUpdateStep]
  cases env.revParseAfter with
  | ok newSha =>
    by_cases h : newSha = currentSha env <;> simp [h, stageIdx]
  | err e => simp [stageIdx]

theorem checkChangesStep_ok (env : UpdateEnv) :
    (∀ r ∈ (checkChangesStep env).records, stageIdx r.stage = 10) ∧
    ((checkChangesStep env).failure.isSome = true →
      ∃ fr ∈ (checkChangesStep env).records, fr.status = "error") := by
  rw [checkChangesStep]
  cases env.diffFiles with
  | nil => simp [stageIdx]
  | cons f fs => by_cases h : f = "" <;> simp [h, stageIdx]

theorem rebuildCodeserverStep_ok (env : UpdateEnv) :
    (∀ r ∈ (rebuildCodeserverStep env).records, stageIdx r.stage = 11) ∧
    ((rebuildCodeserverStep env).failure.isSome = true →
      ∃ fr ∈ (rebuildCodeserverStep env).records, fr.status = "error") := by
  rw [rebuildCodeserverStep]
  cases env.codeserverBuild with
  | completed exitCode log =>
    by_cases h : exitCode = 0 <;> cases env.pruneOk <;> simp [h, stageIdx]
  | timeout => simp [stageIdx]
  | exc m => simp [stageIdx]

/-- A step whose records all sit at one pipeline position `n ≥ lo` and
which leaves an error record whenever it fails is a well-formed entry. -/
theorem uniform_entry (s : StepResult) (lo n : Nat) (hln : lo ≤ n)
    (huni : ∀ r ∈ s.records, stageIdx r.stage = n)
    (herr : s.failure.isSome = true → ∃ fr ∈ s.records, fr.status = "error") :
    StepEntryOk lo n s := by
  refine ⟨?_, ?_, ?_⟩
  · simpa using monoFrom_uniform_append s.records [] lo n hln huni rfl
  · intro r hr
    rw [huni r hr]
    exact ⟨hln, le_rfl⟩
  · intro hf
    obtain ⟨fr, hfr, hst⟩ := herr hf
    refine ⟨fr, hfr, hst, fun r hr => ?_⟩
    rw [huni r hr, huni fr hfr]

/-- The dashboard-rebuild step is well-formed between positions 11 and 13:
its normal records sit at `rebuild_dashboard` (12), while the
exception handler's error record sits at `restart_dashboard` (13). -/
theorem rebuildDashboardStep_entry (env : UpdateEnv) (lo : Nat)
    (hlo : lo ≤ 12) : StepEntryOk lo 13 (rebuildDashboardStep env) := by
  rw [rebuildDashboardStep]
  cases env.dashboardBuild with
  | completed exitCode log =>
    by_cases h : exitCode = 0 <;> simp [StepEntryOk, h, stageIdx, monoFrom, hlo]
  | timeout =>
    simp [StepEntryOk, stageIdx, monoFrom, hlo]
  | exc m =>
    simp [StepEntryOk, stageIdx, monoFrom, hlo]
    omega

theorem verifyImageStep_ok (env : UpdateEnv) :
    (∀ r ∈ (verifyImageStep env).records, stageIdx r.stage = 13) ∧
    ((verifyImageStep env).failure.isSome = true →
      ∃ fr ∈ (verifyImageStep env).records, fr.status = "error") := by
  rw [verifyImageStep]
  cases env.dashImageExists <;> simp [stageIdx]

theorem restartScheduleStep_ok (env : UpdateEnv) :
    (∀ r ∈ (restartScheduleStep env).records, stageIdx r.stage = 13) ∧
    ((restartScheduleStep env).failure.isSome = true →
      ∃ fr ∈ (restartScheduleStep env).records, fr.status = "error") := by
  rw [restartScheduleStep]
  cases env.restartScheduleErr <;> simp [stageIdx]

theorem completeStep_ok :
    (∀ r ∈ completeStep.records, stageIdx r.stage = 14) ∧
    (completeStep.failure.isSome = true →
      ∃ fr ∈ completeStep.records, fr.status = "error") := by
  decide

/-- The fixed pipeline is well-formed: per-step single stages in
nondecreasing pipeline order, and every hard-failing step leaves an
`error` record. -/
theorem updateSteps_ok (env : UpdateEnv) : StepsOk 0 (updateSteps env) := by
  simp only [updateSteps, StepsOk]
  exact ⟨1, by omega,
    uniform_entry _ 0 1 (by omega) initStep_ok.1 initStep_ok.2,
    2, by omega,
    uniform_entry _ 1 2 (by omega) (validateStep_ok env).1 (validateStep_ok env).2,
    3, by omega,
    uniform_entry _ 2 3 (by omega) (versionCheckStep_ok env).1
      (versionCheckStep_ok env).2,
    4, by omega,
    uniform_entry _ 3 4 (by omega) (gitCleanStep_ok env).1 (gitCleanStep_ok env).2,
    5, by omega,
    uniform_entry _ 4 5 (by omega) (gitFetchStep_ok env).1 (gitFetchStep_ok env).2,
    6, by omega,
    uniform_entry _ 5 6 (by omega) (versionCompareStep_ok env).1
      (versionCompareStep_ok env).2,
    7, by omega,
    uniform_entry _ 6 7 (by omega) (gitCheckoutStep_ok env).1
      (gitCheckoutStep_ok env).2,
    8, by omega,
    uniform_entry _ 7 8 (by omega) (gitPullStep_ok env).1 (gitPullStep_ok env).2,
    9, by omega,
    uniform_entry _ 8 9 (by omega) (verifyUpdateStep_ok env).1
      (verifyUpdateStep_ok env).2,
    10, by omega,
    uniform_entry _ 9 10 (by omega) (checkChangesStep_ok env).1
      (checkChangesStep_ok env).2,
    11, by omega,
    uniform_entry _ 10 11 (by omega) (rebuildCodeserverStep_ok env).1
      (rebuildCodeserverStep_ok env).2,
    13, by omega,
    rebuildDashboardStep_entry env 11 (by omega),
    13, by omega,
    uniform_entry _ 13 13 (by omega) (verifyImageStep_ok env).1
      (verifyImageStep_ok env).2,
    13, by omega,
    uniform_entry _ 13 13 (by omega) (restartScheduleStep_ok env).1
      (restartScheduleStep_ok env).2,
    14, by omega,
    uniform_entry _ 13 14 (by omega) completeStep_ok.1 completeStep_ok.2,
    trivial⟩

/-- C8: Hard failure halts the update pipeline.  Every run appends exactly
the per-stage record blocks of the fixed pipeline, in pipeline order
(stage positions never decrease after the start endpoint's `queued`
record); once a stage hard-fails, the run is marked not running with
`success = false` and the failure recorded in `UPDATE_PROGRESS['error']`,
the trace is cut at the failing step, and no later stage starts — every
recorded stage position is bounded by that of the failing step's error
record; with no hard failure the run ends `success = true`. -/
theorem C8_hard_failure_halts (env : UpdateEnv) :
    (_run_system_update_thread env startProgress).stages
      = startProgress.stages ++ stepsTrace (updateSteps env) ∧
    monoFrom 0 (_run_system_update_thread env startProgress).stages = true ∧
    (_run_system_update_thread env startProgress).running = false ∧
    (∀ msg, firstFailure (updateSteps env) = some msg →
      (_run_system_update_thread env startProgress).success = some false ∧
      (_run_system_update_thread env startProgress).error = some msg ∧
      ∃ fr ∈ (_run_system_update_thread env startProgress).stages,
        fr.status = "error" ∧
        ∀ r ∈ (_run_system_update_thread env startProgress).stages,
          stageIdx r.stage ≤ stageIdx fr.stage) ∧
    (firstFailure (updateSteps env) = none →
      (_run_system_update_thread env startProgress).success = some true ∧
      (_run_system_update_thread env startProgress).error = none) := by
  have hok := updateSteps_ok env
  have hstages := runSteps_stages (updateSteps env) startProgress
  have hres := runSteps_result (updateSteps env) startProgress
  have hrw : _run_system_update_thread env startProgress
      = runSteps startProgress (updateSteps env) := rfl
  rw [hrw]
  refine ⟨hstages, ?_, hres.1, ?_, fun hn => hres.2.2 hn⟩
  · rw [hstages]
    have hmono := stepsTrace_mono (updateSteps env) 0 hok
    have hq : startProgress.stages
        = [⟨"queued", "info", some "Update request accepted"⟩] := rfl
    rw [hq]
    simpa [monoFrom, stageIdx] using hmono
  · intro msg hmsg
    refine ⟨(hres.2.1 msg hmsg).1, (hres.2.1 msg hmsg).2, ?_⟩
    obtain ⟨fr, hfr, hst, hb⟩ :=
      stepsTrace_fail_bound (updateSteps env) 0 msg hok hmsg
    rw [hstages]
    refine ⟨fr, List.mem_append.mpr (Or.inr hfr), hst, ?_⟩
    intro r hr
    rcases List.mem_append.mp hr with hr | hr
    · have hrq : r = ⟨"queued", "info", some "Update request accepted"⟩ := by
        have hq : startProgress.stages
            = [⟨"queued", "info", some "Update request accepted"⟩] := rfl
        rw [hq] at hr
        simpa using hr
      rw [hrq]
      exact Nat.zero_le _
    · exact hb r hr

/-- Concrete instantiation of `C8_hard_failure_halts`: with the repository
path missing, the run fails at `validate` with that error recorded. -/
theorem C8_hard_failure_halts_witness :
    firstFailure (updateSteps
        { githubToken := none, repoExists := false, isGitRepo := true,
          revParseHead := .ok "abc", stashResetOk := true, fetch := .ok,
          revParseRemote := .ok "abc", checkout := .ok "", pullExit := 0,
          pullOutput := [], revParseAfter := .ok "abc", diffFiles := [],
          codeserverBuild := .completed 0 "", pruneOk := true,
          dashboardBuild := .completed 0 "", dashImageExists := true,
          restartScheduleErr := none })
      = some "Repository path /opt/dev-farm does not exist" ∧
    (_run_system_update_thread
        { githubToken := none, repoExists := false, isGitRepo := true,
          revParseHead := .ok "abc", stashResetOk := true, fetch := .ok,
          revParseRemote := .ok "abc", checkout := .ok "", pullExit := 0,
          pullOutput := [], revParseAfter := .ok "abc", diffFiles := [],
          codeserverBuild := .completed 0 "", pruneOk := true,
          dashboardBuild := .completed 0 "", dashImageExists := true,
          restartScheduleErr := none } startProgress).success = some false := by
  constructor
  · decide
  · exact ((C8_hard_failure_halts
      { githubToken := none, repoExists := false, isGitRepo := true,
        revParseHead := .ok "abc", stashResetOk := true, fetch := .ok,
        revParseRemote := .ok "abc", checkout := .ok "", pullExit := 0,
        pullOutput := [], revParseAfter := .ok "abc", diffFiles := [],
        codeserverBuild := .completed 0 "", pruneOk := true,
        dashboardBuild := .completed 0 "", dashImageExists := true,
        restartScheduleErr := none }).2.2.2.1
      "Repository path /opt/dev-farm does not exist" (by decide)).1

/-- A run observing equal local and remote revisions whose `git pull`
nevertheless fails; used to refute the claimed short-circuit. -/
def C3env : UpdateEnv :=
  { githubToken := none, repoExists := true, isGitRepo := true,
    revParseHead := .ok "abc", stashResetOk := true, fetch := .ok,
    revParseRemote := .ok "abc", checkout := .ok "", pullExit := 1,
    pullOutput := ["error: failed to pull"], revParseAfter := .ok "abc",
    diffFiles := [], codeserverBuild := .completed 0 "", pruneOk := true,
    dashboardBuild := .completed 0 "", dashImageExists := true,
    restartScheduleErr := none }

/-- C3, counterexample: a run that sees equal revisions (it logs
`Already up to date at abc`) still proceeds to `git_pull` — a later stage
of the same continuing run — and, that pull failing, ends Failed rather
than short-circuiting to Succeeded. -/
theorem C3_short_circuit_counterexample :
    (⟨"version_compare", "success", some "Already up to date at abc"⟩ :
        StageRecord)
      ∈ (_run_system_update_thread C3env startProgress).stages ∧
    (⟨"git_pull", "starting", some "Pulling latest code..."⟩ : StageRecord)
      ∈ (_run_system_update_thread C3env startProgress).stages ∧
    (_run_system_update_thread C3env startProgress).success = some false := by
  decide

/-- C3 (amended): when the captured current revision equals the fetched
remote revision, the compare stage logs the up-to-date notice plus an
explicit force-rebuild notice and does not fail, and the run continues
into the checkout stage (and beyond) instead of short-circuiting. -/
theorem C3_equal_revisions_continue (env : UpdateEnv) (s : String)
    (h1 : env.repoExists = true) (h2 : env.isGitRepo = true)
    (h3 : env.fetch = .ok) (h4 : env.revParseHead = .ok s)
    (h5 : env.revParseRemote = .ok s) :
    (versionCompareStep env).failure = none ∧
    (⟨"version_compare", "info",
        some "Force rebuild - will rebuild images anyway"⟩ : StageRecord)
      ∈ (_run_system_update_thread env startProgress).stages ∧
    (⟨"git_checkout", "starting", some "Ensuring main branch..."⟩ :
        StageRecord)
      ∈ (_run_system_update_thread env startProgress).stages := by
  have hstages := runSteps_stages (updateSteps env) startProgress
  have hcur : currentSha env = s := by rw [currentSha, h4]
  have hval : (validateStep env).failure = none := by
    rw [validateStep]
    simp [h1, h2]
  have hfetch : (gitFetchStep env).failure = none := by
    rw [gitFetchStep, h3]
  have hrw : _run_system_update_thread env startProgress
      = runSteps startProgress (updateSteps env) := rfl
  refine ⟨rfl, ?_, ?_⟩ <;> rw [hrw, hstages] <;>
    cases hco : env.checkout <;>
      simp [updateSteps, stepsTrace, initStep, hval, versionCheckStep,
        gitCleanStep, hfetch, versionCompareStep, gitCheckoutStep, hco, hcur,
        h5, startProgress, _append_stage, _reset_update_progress]

/-- Concrete instantiation of `C3_equal_revisions_continue` on `C3env`. -/
theorem C3_equal_revisions_continue_witness :
    (versionCompareStep C3env).failure = none ∧
    (⟨"git_checkout", "starting", some "Ensuring main branch..."⟩ :
        StageRecord)
      ∈ (_run_system_update_thread C3env startProgress).stages := by
  have h := C3_equal_revisions_continue C3env "abc" (by decide) (by decide)
    (by decide) (by decide) (by decide)
  exact ⟨h.1, h.2.2⟩

end DevFarm
